import Mathlib

/-!
Shallow embedding of the milehighgophers website data layer (`data` package:
Store, Poll, poll, updateCache, AllEvents, Event, HumanTime, events) and of
the `ui` package's UpcomingEvents, together with theorems settling the
specification claims about them.

Conventions of the embedding:
* Go's `Event` struct becomes a Lean structure with `Int` for the `int64`
  time field (event times in this program never approach the int64 bounds,
  and no arithmetic that could overflow is performed on them).
* The HTTP fetch + JSON decode performed by `events` is modelled by an
  abstract per-source `FetchResult`: the network call either fails at the
  transport level, or yields a body that fails to decode, or yields a
  decoded list of events.  `events` itself is then a total function of that
  result, mirroring the Go control flow (`log.Fatal` on transport error,
  returned error on decode error).
* A Go `map[string][]Event` built by inserting distinct keys in a fixed
  iteration order is modelled as an association list in insertion order;
  a `nil` map is modelled as `Option.none`.
* `sort.Slice` is modelled by its documented contract: the output is a
  permutation of the input, sorted by the supplied comparison; the Go
  library explicitly does NOT guarantee stability, so the model is a
  relation (`SortSpec`), not a function.
-/

namespace MHG

/-- Go struct `Event` from the data package: ID, Name, and Time in epoch
milliseconds. -/
structure Event where
  id : String
  name : String
  time : Int
deriving DecidableEq, Repr

/-- Outcome of the raw HTTP GET + body decode for one source, abstracting
the network and the JSON decoder: transport-level failure of `http.Get`,
decode failure of `decoder.Decode`, or a successfully decoded event list. -/
inductive FetchResult where
  | transportErr
  | decodeErr
  | ok (events : List Event)
deriving DecidableEq, Repr

/-- What the Go function `events(name)` does with a fetch outcome:
`log.Fatal(err)` on a transport error (the process terminates), an error
return on a decode failure, and the decoded list on success. -/
inductive EventsOutcome where
  | fatal
  | err
  | ok (events : List Event)
deriving DecidableEq, Repr

/-- The Go function `events`: `http.Get` error ⇒ `log.Fatal` (modelled as
`fatal`), decode error ⇒ returned error, otherwise the decoded events. -/
def eventsFn : FetchResult → EventsOutcome
  | .transportErr => .fatal
  | .decodeErr => .err
  | .ok es => .ok es

/-- The package-level `meetupNames` variable: the fixed source list. -/
def meetupNames : List String :=
  ["Boulder-Gophers", "Denver-Go-Language-User-Group",
   "Denver-Go-Programming-Language-Meetup"]

/-- A snapshot: `map[string][]Event` with distinct keys, as an association
list in insertion order. -/
abbrev Snap := List (String × List Event)

/-- The first loop of `poll`: iterate the source list in order, call
`events`, skip sources whose fetch returned an error, insert successes
into the map.  `none` models the process dying inside `events`
(transport error ⇒ `log.Fatal`), in which case `poll` never returns. -/
def collectWith (names : List String) (fetch : String → FetchResult) :
    Option Snap :=
  match names with
  | [] => some []
  | n :: rest =>
    match eventsFn (fetch n) with
    | .fatal => none
    | .err => collectWith rest fetch
    | .ok es => (collectWith rest fetch).map (fun s => (n, es) :: s)

/-- `sortedByTime l = true` iff `l` is non-decreasing in the `time` field:
the comparison closure `v[i].Time < v[j].Time` handed to `sort.Slice`. -/
def sortedByTime : List Event → Bool
  | [] => true
  | [_] => true
  | a :: b :: rest => (a.time ≤ b.time) && sortedByTime (b :: rest)

/-- The documented contract of `sort.Slice(v, less)`: afterwards `v` holds
a permutation of its former contents, sorted by `less`.  Stability is
deliberately NOT part of this contract (Go documents `sort.Slice` as "not
guaranteed to be stable"; the stable variant is `sort.SliceStable`). -/
def SortSpec (l l' : List Event) : Prop :=
  l.Perm l' ∧ sortedByTime l' = true

/-- Result of one call to `poll`: either the process died in `events`
(`log.Fatal` on a transport error) or a finished snapshot. -/
inductive PollOutcome where
  | fatal
  | snapshot (s : Snap)
deriving DecidableEq, Repr

/-- The whole of `poll` over an arbitrary source list: first loop collects
successes in order; second loop sorts each entry in place with
`sort.Slice`.  Relational because `sort.Slice` is. -/
def PollRelWith (names : List String) (fetch : String → FetchResult)
    (out : PollOutcome) : Prop :=
  match collectWith names fetch with
  | none => out = PollOutcome.fatal
  | some al =>
    ∃ sal, out = PollOutcome.snapshot sal ∧
      List.Forall₂ (fun p q => p.1 = q.1 ∧ SortSpec p.2 q.2) al sal

/-- `poll` as in the source: over the fixed `meetupNames` list. -/
def PollRel (fetch : String → FetchResult) (out : PollOutcome) : Prop :=
  PollRelWith meetupNames fetch out

/-- Does `events` succeed for this source?  (`err` is skipped by `poll`,
`fatal` kills the process.) -/
def fetchSucceeds (fetch : String → FetchResult) (n : String) : Bool :=
  match eventsFn (fetch n) with
  | .ok _ => true
  | _ => false

/-- The events `events` returns for a source on success (junk otherwise). -/
def fetchedEvents (fetch : String → FetchResult) (n : String) : List Event :=
  match eventsFn (fetch n) with
  | .ok es => es
  | _ => []

/-- Go struct `Store`: polling interval plus the event cache.  The mutex
guards the cache; with lock-step atomic access the sequential model is a
plain optional snapshot, `none` standing for the zero-value `nil` map. -/
structure Store where
  pollingInterval : Nat
  eventCache : Option Snap
deriving DecidableEq, Repr

/-- `NewStore`: sets the interval; `eventCache` is left at its zero value,
the `nil` map. -/
def NewStore (i : Nat) : Store :=
  { pollingInterval := i, eventCache := none }

/-- `updateCache`: takes the lock and overwrites `eventCache` wholesale. -/
def updateCache (s : Store) (events : Snap) : Store :=
  { s with eventCache := some events }

/-- `AllEvents`: takes the lock and returns the current `eventCache`. -/
def AllEvents (s : Store) : Option Snap :=
  s.eventCache

/-- Ranging over a possibly-`nil` Go map: a `nil` map yields no entries. -/
def mapEntries : Option Snap → Snap
  | none => []
  | some m => m

/-- The three statements of the body of `Poll`'s infinite `for` loop, in
program order. -/
inductive Action where
  | aggregate
  | replace
  | sleep
deriving DecidableEq, Repr

/-- One iteration of `Poll`: `s.poll()`, then `s.updateCache(events)`,
then `time.Sleep(s.pollingInterval)`, in that order. -/
def pollIteration : List Action :=
  [Action.aggregate, Action.replace, Action.sleep]

/-- The trace of the first `n` iterations of `Poll`'s loop.  The loop has
no prelude: iteration 1 starts immediately with `s.poll()`. -/
def pollTrace : Nat → List Action
  | 0 => []
  | n + 1 => pollIteration ++ pollTrace n

/-! `HumanTime` formats `time.Unix(e.Time/1000, 0)` with the RFC1123
layout `"Mon, 02 Jan 2006 15:04:05 MST"`.  The model renders in UTC
(Go uses the process's local zone; the zone choice is a fixed parameter
and does not affect which inputs render equal).  `e.Time/1000` is Go
`int64` division, truncation toward zero: `Int.tdiv`. -/

/-- Two-digit zero padding used by the `02`, `15`, `04`, `05` fields. -/
def pad2 (n : Nat) : String :=
  if n < 10 then "0" ++ toString n else toString n

/-- RFC1123 weekday abbreviation, 0 = Sunday. -/
def weekdayName : Nat → String
  | 0 => "Sun"
  | 1 => "Mon"
  | 2 => "Tue"
  | 3 => "Wed"
  | 4 => "Thu"
  | 5 => "Fri"
  | _ => "Sat"

/-- RFC1123 month abbreviation, 1 = January. -/
def monthName : Nat → String
  | 1 => "Jan"
  | 2 => "Feb"
  | 3 => "Mar"
  | 4 => "Apr"
  | 5 => "May"
  | 6 => "Jun"
  | 7 => "Jul"
  | 8 => "Aug"
  | 9 => "Sep"
  | 10 => "Oct"
  | 11 => "Nov"
  | _ => "Dec"

/-- Proleptic-Gregorian civil date from days since 1970-01-01
(standard era-based conversion): year, month (1..12), day (1..31). -/
def civilFromDays (z0 : Int) : Int × Nat × Nat :=
  let z := z0 + 719468
  let era := Int.fdiv z 146097
  let doe : Nat := (z - era * 146097).toNat
  let yoe : Nat := (doe - doe / 1460 + doe / 36524 - doe / 146096) / 365
  let doy : Nat := doe - (365 * yoe + yoe / 4 - yoe / 100)
  let mp : Nat := (5 * doy + 2) / 153
  let d : Nat := doy - (153 * mp + 2) / 5 + 1
  let m : Nat := if mp < 10 then mp + 3 else mp - 9
  (era * 400 + yoe + (if m ≤ 2 then 1 else 0), m, d)

/-- Format a count of seconds since the Unix epoch with the RFC1123
layout (UTC rendering of `time.Unix(sec, 0).Format(time.RFC1123)`). -/
def rfc1123OfSeconds (sec : Int) : String :=
  let days := Int.fdiv sec 86400
  let sod : Nat := (sec - days * 86400).toNat
  let ymd := civilFromDays days
  let wd : Nat := ((days + 4).emod 7).toNat
  weekdayName wd ++ ", " ++ pad2 ymd.2.2 ++ " " ++ monthName ymd.2.1 ++ " " ++
    toString ymd.1 ++ " " ++ pad2 (sod / 3600) ++ ":" ++
    pad2 ((sod / 60) % 60) ++ ":" ++ pad2 (sod % 60) ++ " UTC"

/-- Method `Event.HumanTime`: `time.Unix(e.Time/1000, 0).Format(time.RFC1123)`.
The seconds argument is `e.Time/1000` (Go truncating division); the `0`
nanoseconds and the layout are fixed, so the rendered string is obtained by
applying the fixed formatter to that quotient. -/
def HumanTime (e : Event) : String :=
  rfc1123OfSeconds (Int.tdiv e.time 1000)

/-! The `ui` package.  `UpcomingEvents` builds a new map whose value for
each key is the Go slice expression `v[0:3]`.  In Go, `v[0:3]` on a slice
holding fewer than 3 elements panics with a slice-bounds-out-of-range
runtime error; the rendering dies.  `none` models that panic. -/

/-- Go slice expression `v[0:3]`: the first three elements, or a
bounds panic (`none`) when `v` holds fewer than three. -/
def sliceFirstThree (v : List Event) : Option (List Event) :=
  if v.length < 3 then none else some (v.take 3)

/-- Method `indexPage.UpcomingEvents`: for every source in the snapshot,
take `v[0:3]`; any source with fewer than three events makes the whole
render panic (`none`). -/
def UpcomingEvents (events : Snap) : Option Snap :=
  events.mapM (fun kv => (sliceFirstThree kv.2).map (fun t => (kv.1, t)))

/-- The sources of the fixed list whose fetch succeeded this cycle. -/
def succeededSources (fetch : String → FetchResult) : List String :=
  meetupNames.filter (fun n => fetchSucceeds fetch n)

/-- Is every event list of the snapshot sorted by time? -/
def allSorted (sal : Snap) : Bool :=
  sal.all (fun q => sortedByTime q.2)

/-! Concrete scenario fixtures used by counterexamples and witnesses. -/

/-- C1 scenario: the second source's fetch fails at the transport level,
the other two succeed. -/
def fetchC1 : String → FetchResult := fun n =>
  if n = "Denver-Go-Language-User-Group" then FetchResult.transportErr
  else FetchResult.ok []

/-- A single upcoming event. -/
def evC2 : Event := ⟨"ev-1", "Go Night", 1700000000000⟩

/-- Two distinct events sharing one occurrence time. -/
def evT1 : Event := ⟨"1", "fetched first", 1700000000000⟩

/-- Second event with the same occurrence time as `evT1`. -/
def evT2 : Event := ⟨"2", "fetched second", 1700000000000⟩

/-- C3 scenario: the first source returns `[evT1, evT2]` (a tie), the
other sources fail to decode. -/
def fetchC3 : String → FetchResult := fun n =>
  if n = "Boulder-Gophers" then FetchResult.ok [evT1, evT2]
  else FetchResult.decodeErr

/-- C6 scenario event `{id:1, time:300}`. -/
def evA300 : Event := ⟨"1", "", 300⟩

/-- C6 scenario event `{id:2, time:100}`. -/
def evA100 : Event := ⟨"2", "", 100⟩

/-- C6 scenario: fetch("A") succeeds with `[evA300, evA100]`, fetch("B")
fails. -/
def fetchC6 : String → FetchResult := fun n =>
  if n = "A" then FetchResult.ok [evA300, evA100]
  else FetchResult.decodeErr

/-- Witness event, time 200. -/
def evW200 : Event := ⟨"w1", "a", 200⟩

/-- Witness event, time 100. -/
def evW100 : Event := ⟨"w2", "b", 100⟩

/-- Witness event, time 500. -/
def evW500 : Event := ⟨"w3", "c", 500⟩

/-- Witness scenario: first source succeeds out of order, second fails to
decode, third succeeds. -/
def fetchW : String → FetchResult := fun n =>
  if n = "Boulder-Gophers" then FetchResult.ok [evW200, evW100]
  else if n = "Denver-Go-Language-User-Group" then FetchResult.decodeErr
  else FetchResult.ok [evW500]

/-- The collected (pre-sort) association list of the witness scenario. -/
def alW : Snap :=
  [("Boulder-Gophers", [evW200, evW100]),
   ("Denver-Go-Programming-Language-Meetup", [evW500])]

/-- The sorted snapshot of the witness scenario. -/
def salW : Snap :=
  [("Boulder-Gophers", [evW100, evW200]),
   ("Denver-Go-Programming-Language-Meetup", [evW500])]

/-- Event with time 1700000000123 ms. -/
def evH1 : Event := ⟨"h1", "x", 1700000000123⟩

/-- Event with time 1700000000999 ms: same whole second as `evH1`. -/
def evH2 : Event := ⟨"h2", "y", 1700000000999⟩

/-! Helper lemmas. -/

/-- The first loop of `poll`, when it completes (no transport fatal),
collects exactly the successful sources, in source-list order, each paired
with its fetched events. -/
lemma collectWith_eq_filter (fetch : String → FetchResult) :
    ∀ (names : List String) (al : Snap), collectWith names fetch = some al →
      al = (names.filter (fun n => fetchSucceeds fetch n)).map
        (fun n => (n, fetchedEvents fetch n)) := by
  intro names
  induction names with
  | nil =>
    intro al h
    simp only [collectWith, Option.some.injEq] at h
    simp [← h]
  | cons n rest ih =>
    intro al h
    cases hf : eventsFn (fetch n) with
    | fatal => simp [collectWith, hf] at h
    | err =>
      have hs : fetchSucceeds fetch n = false := by simp [fetchSucceeds, hf]
      simp only [collectWith, hf] at h
      simpa [List.filter_cons, hs] using ih al h
    | ok es =>
      have hs : fetchSucceeds fetch n = true := by simp [fetchSucceeds, hf]
      have he : fetchedEvents fetch n = es := by simp [fetchedEvents, hf]
      simp only [collectWith, hf, Option.map_eq_some'] at h
      obtain ⟨s, hcs, rfl⟩ := h
      simp [List.filter_cons, hs, he, ih s hcs]

/-- Right-membership inversion for `Forall₂`. -/
lemma forall₂_mem_right {α β : Type} {R : α → β → Prop} :
    ∀ {l₁ : List α} {l₂ : List β}, List.Forall₂ R l₁ l₂ →
      ∀ b ∈ l₂, ∃ a ∈ l₁, R a b := by
  intro l₁ l₂ h
  induction h with
  | nil => intro b hb; simp at hb
  | cons hr _ ih =>
    intro b hb
    rcases List.mem_cons.mp hb with rfl | hb
    · exact ⟨_, List.mem_cons_self _ _, hr⟩
    · obtain ⟨a, ha, hab⟩ := ih b hb
      exact ⟨a, List.mem_cons_of_mem _ ha, hab⟩

/-- If each related pair agrees on the key, the snapshot's key list is the
left-hand list. -/
lemma forall₂_fst_map {R : String → String × List Event → Prop}
    (hR : ∀ n q, R n q → q.1 = n) :
    ∀ {names : List String} {sal : Snap},
      List.Forall₂ R names sal → sal.map Prod.fst = names := by
  intro names sal h
  induction h with
  | nil => rfl
  | cons hr _ ih => simp [List.map_cons, hR _ _ hr, ih]

/-- A permutation of a two-element list is that list or its swap. -/
lemma perm_pair {α : Type} (a b : α) (l : List α) (h : l.Perm [a, b]) :
    l = [a, b] ∨ l = [b, a] := by
  have hlen := h.length_eq
  match l, hlen with
  | [x, y], _ =>
    have hx : x ∈ [a, b] := h.mem_iff.mp (by simp)
    rcases List.mem_pair.mp hx with rfl | rfl
    · have h1 : [y].Perm [b] := (List.perm_cons x).mp h
      simp [List.perm_singleton.mp h1]
    · have h2 : [x, y].Perm [x, a] := h.trans (List.Perm.swap x a [])
      have h1 : [y].Perm [a] := (List.perm_cons x).mp h2
      simp [List.perm_singleton.mp h1]

/-- Central inversion of `PollRelWith` at a produced snapshot: the
snapshot entries correspond one-to-one, in order, to the successful
sources, each entry keyed by its source and holding a `sort.Slice` output
of that source's fetched events. -/
lemma pollRelWith_snapshot_inv (names : List String)
    (fetch : String → FetchResult) (sal : Snap)
    (h : PollRelWith names fetch (PollOutcome.snapshot sal)) :
    List.Forall₂ (fun n q => q.1 = n ∧ SortSpec (fetchedEvents fetch n) q.2)
      (names.filter (fun n => fetchSucceeds fetch n)) sal := by
  unfold PollRelWith at h
  cases hc : collectWith names fetch with
  | none =>
    rw [hc] at h
    exact (PollOutcome.noConfusion h)
  | some al =>
    rw [hc] at h
    obtain ⟨sal', heq, hfa⟩ := h
    obtain rfl : sal = sal' := by
      cases heq
      rfl
    have hal := collectWith_eq_filter fetch names al hc
    subst hal
    rw [List.forall₂_map_left_iff] at hfa
    exact hfa.imp (fun n q hh => ⟨hh.1.symm, hh.2⟩)

/-- The witness scenario really is a possible `poll` outcome. -/
lemma pollRelW_holds : PollRel fetchW (PollOutcome.snapshot salW) := by
  have hc : collectWith meetupNames fetchW = some alW := by decide
  unfold PollRel PollRelWith
  rw [hc]
  exact ⟨salW, rfl,
    List.Forall₂.cons ⟨rfl, by decide, by decide⟩
      (List.Forall₂.cons ⟨rfl, by decide, by decide⟩ List.Forall₂.nil)⟩

/-! Claim theorems. -/

/-- Claim C1 (refuted by the code, bug on the code's side): the claim says
a transport-level fetch failure is contained per-source — logged, the
source omitted, the process continues.  In the code, `events` calls
`log.Fatal` on a transport error, so the process terminates: with a
transport failure on just one of the three sources the only possible
outcome of the cycle is process death (`PollOutcome.fatal`), and no
snapshot — not even one omitting the failed source — is produced. -/
theorem transport_error_kills_process :
    eventsFn FetchResult.transportErr = EventsOutcome.fatal ∧
    (∀ out, PollRel fetchC1 out ↔ out = PollOutcome.fatal) := by
  refine ⟨rfl, fun out => ?_⟩
  have hc : collectWith meetupNames fetchC1 = none := by decide
  unfold PollRel PollRelWith
  rw [hc]

/-- Claim C2 (refuted by the code, bug on the code's side): the claim says
rendering top-3 of a source with fewer than 3 events clamps to the
available count.  The code slices `v[0:3]` unchecked, which for a source
with one event — and likewise with zero — is a fatal slice-bounds panic
(`none`), not a clamped display list. -/
theorem upcoming_events_fewer_than_three_panics :
    UpcomingEvents [("Boulder-Gophers", [evC2])] = none ∧
    UpcomingEvents [("Boulder-Gophers", [])] = none := by
  exact ⟨rfl, rfl⟩

/-- Claim C3 counterexample: the first source's fetch returns `evT1`
before `evT2`, the two have equal occurrence time, yet `poll` — whose
`sort.Slice` carries no stability guarantee — can produce the snapshot
listing `evT2` first, breaking original fetch order among ties. -/
theorem poll_can_reorder_equal_time_events :
    fetchedEvents fetchC3 "Boulder-Gophers" = [evT1, evT2] ∧
    evT1.time = evT2.time ∧ evT1 ≠ evT2 ∧
    PollRel fetchC3 (PollOutcome.snapshot [("Boulder-Gophers", [evT2, evT1])]) := by
  refine ⟨by decide, rfl, by decide, ?_⟩
  have hc : collectWith meetupNames fetchC3 =
      some [("Boulder-Gophers", [evT1, evT2])] := by decide
  unfold PollRel PollRelWith
  rw [hc]
  exact ⟨[("Boulder-Gophers", [evT2, evT1])], rfl,
    List.Forall₂.cons ⟨rfl, by decide, by decide⟩ List.Forall₂.nil⟩

/-- Claim C3 (amended): in every snapshot `poll` can produce, every present
source's event sequence is a permutation of that source's fetched events,
sorted non-decreasing by occurrence time; the relative order of events
with equal occurrence time is unspecified, because `sort.Slice` is not a
stable sort. -/
theorem poll_per_source_sorted_permutation (fetch : String → FetchResult)
    (sal : Snap) (h : PollRel fetch (PollOutcome.snapshot sal)) :
    ∀ q ∈ sal, (fetchedEvents fetch q.1).Perm q.2 ∧ sortedByTime q.2 = true := by
  intro q hq
  obtain ⟨n, _, hfst, hperm, hsort⟩ :=
    forall₂_mem_right (pollRelWith_snapshot_inv meetupNames fetch sal h) q hq
  subst hfst
  exact ⟨hperm, hsort⟩

/-- Witness for the amended C3 at the concrete witness scenario. -/
theorem poll_per_source_sorted_permutation_witness :
    (fetchedEvents fetchW "Boulder-Gophers").Perm [evW100, evW200] ∧
    sortedByTime [evW100, evW200] = true :=
  poll_per_source_sorted_permutation fetchW salW pollRelW_holds
    ("Boulder-Gophers", [evW100, evW200]) (by decide)

/-- Claim C4: every snapshot `poll` can produce has every present source's
event sequence sorted non-decreasing by occurrence time. -/
theorem poll_snapshot_sorted (fetch : String → FetchResult) (sal : Snap)
    (h : PollRel fetch (PollOutcome.snapshot sal)) :
    allSorted sal = true := by
  rw [allSorted, List.all_eq_true]
  intro q hq
  obtain ⟨n, _, _, _, hsort⟩ :=
    forall₂_mem_right (pollRelWith_snapshot_inv meetupNames fetch sal h) q hq
  exact hsort

/-- Witness for C4 at the concrete witness scenario. -/
theorem poll_snapshot_sorted_witness : allSorted salW = true :=
  poll_snapshot_sorted fetchW salW pollRelW_holds

/-- Claim C5: when some fetches fail to decode and others succeed, a
produced snapshot's keys are exactly the successful sources, in source
order (a failed source is omitted entirely — no empty list), and each
successful source's entry is determined by its own fetch alone: its own
events, sorted, regardless of the other sources' failures. -/
theorem poll_partial_failure_exact_sources (fetch : String → FetchResult)
    (sal : Snap) (h : PollRel fetch (PollOutcome.snapshot sal)) :
    sal.map Prod.fst = succeededSources fetch ∧
    List.Forall₂ (fun n q => q.1 = n ∧ SortSpec (fetchedEvents fetch n) q.2)
      (succeededSources fetch) sal := by
  have hfa := pollRelWith_snapshot_inv meetupNames fetch sal h
  exact ⟨forall₂_fst_map (fun n q hq => hq.1) hfa, hfa⟩

/-- Witness for C5 at the concrete witness scenario: the decode-failing
second source is absent, the two successful sources are present with
their own sorted events. -/
theorem poll_partial_failure_exact_sources_witness :
    salW.map Prod.fst = succeededSources fetchW ∧
    List.Forall₂ (fun n q => q.1 = n ∧ SortSpec (fetchedEvents fetchW n) q.2)
      (succeededSources fetchW) salW :=
  poll_partial_failure_exact_sources fetchW salW pollRelW_holds

/-- Claim C6: with source list `["A", "B"]`, fetch("A") succeeding with
`[{id:1,time:300}, {id:2,time:100}]` and fetch("B") failing, the one and
only snapshot `poll` can produce is `{"A": [{id:2,time:100},
{id:1,time:300}]}`, with "B" absent. -/
theorem scenario_ab_snapshot :
    ∀ out, PollRelWith ["A", "B"] fetchC6 out ↔
      out = PollOutcome.snapshot [("A", [evA100, evA300])] := by
  intro out
  have hc : collectWith ["A", "B"] fetchC6 =
      some [("A", [evA300, evA100])] := by decide
  unfold PollRelWith
  rw [hc]
  constructor
  · rintro ⟨sal, rfl, hfa⟩
    rw [List.forall₂_cons_left_iff] at hfa
    obtain ⟨q, tail, ⟨hfst, hperm, hsort⟩, htail, rfl⟩ := hfa
    rw [List.forall₂_nil_left_iff] at htail
    subst htail
    rcases perm_pair evA300 evA100 q.2 hperm.symm with h2 | h2
    · rw [h2] at hsort
      exact absurd hsort (by decide)
    · obtain ⟨q1, q2⟩ := q
      simp only at hfst h2
      rw [← hfst, h2]
  · rintro rfl
    exact ⟨[("A", [evA100, evA300])], rfl,
      List.Forall₂.cons ⟨rfl, by decide, by decide⟩ List.Forall₂.nil⟩

/-- Claim C7: a freshly constructed Store has the zero-value `nil` cache:
`AllEvents` returns the absent map, which reads as empty — no error, no
garbage. -/
theorem new_store_reads_empty (i : Nat) :
    AllEvents (NewStore i) = none ∧ mapEntries (AllEvents (NewStore i)) = [] :=
  ⟨rfl, rfl⟩

/-- Claim C8: installing a snapshot with `updateCache` and then reading
with `AllEvents` returns exactly the installed snapshot (round-trip), for
every store and snapshot. -/
theorem replace_then_read_roundtrip (s : Store) (m : Snap) :
    AllEvents (updateCache s m) = some m :=
  rfl

/-- Claim C9: each iteration of `Poll` is aggregate, then replace, then
sleep, in that order, and the trace of any positive number of iterations
begins with aggregate — the first poll happens immediately, with no sleep
before it. -/
theorem poll_loop_step_order (n : Nat) :
    pollTrace (n + 1) =
      Action.aggregate :: Action.replace :: Action.sleep :: pollTrace n ∧
    (pollTrace (n + 1)).head? = some Action.aggregate :=
  ⟨rfl, rfl⟩

/-- Claim C10: `HumanTime` factors through `Time/1000` (Go truncating
int64 division): two events in the same whole second — equal quotients —
render to identical strings; sub-second millisecond precision is
discarded. -/
theorem human_time_depends_on_seconds (a b : Event)
    (h : Int.tdiv a.time 1000 = Int.tdiv b.time 1000) :
    HumanTime a = HumanTime b := by
  unfold HumanTime
  rw [h]

/-- Witness for C10: `evH1` and `evH2` differ by 876 ms inside second
1700000000 and render identically. -/
theorem human_time_depends_on_seconds_witness :
    Int.tdiv evH1.time 1000 = Int.tdiv evH2.time 1000 ∧
    HumanTime evH1 = HumanTime evH2 :=
  ⟨by decide, human_time_depends_on_seconds evH1 evH2 (by decide)⟩

end MHG
